import Mathlib

/-!
Verification development for the WeChat QR-code login service
(`scene_id_manager.py` and `main.py`).

The shallow embedding models:
* the identifier pool `SceneIdManager` (record table `scene_id_to_url`,
  available list `available_scene_ids`, allocation `get_scene_id`,
  release `release_scene_id`, lookup `get_qrcode_url`);
* the webhook handler `post_wechat_event` (correlation via the global
  `clients` map, Python `str.replace` on the event key);
* the SSE event generator (initial frame, single bounded wait, frames);
* the teardown operations executed on each session-termination cause.

Machine representation conventions:
* Python `dict` is modelled as an association list `List (String × QrInfo)`
  (first match wins on lookup, like a dict with unique keys; theorems that
  need dict semantics carry a `Nodup` hypothesis on the keys);
* the Python list `available_scene_ids` is pushed with `append` and popped
  with `pop()` (both at the Python list's end); the model keeps that list
  reversed, so the head of the Lean list is the end of the Python list:
  push is `cons`, pop takes the head.  Every claim about this container
  concerns membership and counts, which the reversal preserves element-wise.
* wall-clock times are natural numbers of seconds (`time.time()` readings);
  integers are used in the SSE generator where a signed remainder matters.
* external effects (the WeChat QR-creation endpoint, `asyncio.sleep`) are
  modelled by oracle parameters: the issuer outcome list for retries, and
  ghost counters for sleeps.
-/

/-- One value of the `scene_id_to_url` dict:
`{"qrcode_url": ..., "created_at": ...}` (`created_at` is stored by the
source as `str(int(time.time()))`; we keep it as the number). -/
structure QrInfo where
  qrcode_url : String
  created_at : Nat
deriving Repr, DecidableEq

/-- Association-list lookup: Python `dict.get`. -/
def dictGet (t : List (String × QrInfo)) (k : String) : Option QrInfo :=
  match t with
  | [] => none
  | (k', v) :: rest => if k' = k then some v else dictGet rest k

/-- Python `del d[k]`: remove the (first) entry with key `k`. -/
def dictDel (t : List (String × QrInfo)) (k : String) : List (String × QrInfo) :=
  match t with
  | [] => []
  | (k', v) :: rest => if k' = k then rest else (k', v) :: dictDel rest k

/-- Python `d[k] = v`: overwrite the entry with key `k`, or add it. -/
def dictSet (t : List (String × QrInfo)) (k : String) (v : QrInfo) :
    List (String × QrInfo) :=
  (k, v) :: dictDel t k

/-- The keys of the record table. -/
def dictKeys (t : List (String × QrInfo)) : List String := t.map Prod.fst

/-- Mutable state of `SceneIdManager`: the record table `scene_id_to_url`
and the pool `available_scene_ids` (head = most recently pushed). -/
structure PoolState where
  scene_id_to_url : List (String × QrInfo)
  available_scene_ids : List String
deriving Repr, DecidableEq

/-- `self.max_retries = 3`. -/
def max_retries : Nat := 3

/-- `self.retry_delay = 1` (seconds). -/
def retry_delay : Nat := 1

/-- `self.expire_seconds = 2592000` (30 days). -/
def expire_seconds : Nat := 2592000

/-- Result of the while-loop over `available_scene_ids` in `get_scene_id`
(lines 190–206): the returned pair if any, the record table and available
list after the loop, and — as ghost instrumentation used only in
statements — the list of ids popped by the loop. -/
structure ScanResult where
  result : Option (String × String)
  table : List (String × QrInfo)
  avail : List String
  popped : List String
deriving Repr, DecidableEq

/-- The `while self.available_scene_ids:` loop of `get_scene_id`:
pop an id; if its record is missing, skip it; if `now - created_at <
expire_seconds`, return `(scene_id, qrcode_url)`; otherwise delete the
record (`del self.scene_id_to_url[scene_id]`) and continue. -/
def scanLoop (now : Nat) (table : List (String × QrInfo)) (avail : List String) :
    ScanResult :=
  match avail with
  | [] => ⟨none, table, [], []⟩
  | sid :: rest =>
    match dictGet table sid with
    | some info =>
      if now - info.created_at < expire_seconds then
        ⟨some (sid, info.qrcode_url), table, rest, [sid]⟩
      else
        let r := scanLoop now (dictDel table sid) rest
        ⟨r.result, r.table, r.avail, sid :: r.popped⟩
    | none =>
      let r := scanLoop now table rest
      ⟨r.result, r.table, r.avail, sid :: r.popped⟩

/-- Result of the dynamic-creation retry loop of `get_scene_id`
(lines 213–229): the url if some attempt succeeded, the number of
`_create_qrcode` attempts actually made, and the total time spent in
`asyncio.sleep(self.retry_delay)` (both ghost counters). -/
structure CreateResult where
  url : Option String
  attempts : Nat
  sleep : Nat
deriving Repr, DecidableEq

/-- The `for attempt in range(self.max_retries):` loop.  Each attempt's
outcome is read from the `issuer` oracle list (`some url` = the WeChat
call returned a qrcode url, `none` or oracle exhausted = `_create_qrcode`
returned `None`).  On failure the source sleeps `retry_delay` and retries;
on success it returns at once. -/
def createLoop (issuer : List (Option String)) (fuel : Nat) : CreateResult :=
  match fuel with
  | 0 => ⟨none, 0, 0⟩
  | n + 1 =>
    match issuer with
    | some url :: _ => ⟨some url, 1, 0⟩
    | none :: restIssuer =>
      let r := createLoop restIssuer n
      ⟨r.url, r.attempts + 1, r.sleep + retry_delay⟩
    | [] =>
      let r := createLoop [] n
      ⟨r.url, r.attempts + 1, r.sleep + retry_delay⟩

/-- `SceneIdManager.get_scene_id` (lines 176–233).  `now` is the
`time.time()` reading, `new_scene_id` the `str(uuid.uuid4())` drawn for
the dynamic path, `issuer` the oracle of `_create_qrcode` outcomes.
Returns the Python `(scene_id, qrcode_url)` pair (`none` models
`(None, None)`) and the state after the call. -/
def get_scene_id (now : Nat) (st : PoolState) (new_scene_id : String)
    (issuer : List (Option String)) : Option (String × String) × PoolState :=
  let scan := scanLoop now st.scene_id_to_url st.available_scene_ids
  match scan.result with
  | some pair => (some pair, ⟨scan.table, scan.avail⟩)
  | none =>
    let c := createLoop issuer max_retries
    match c.url with
    | some url =>
      (some (new_scene_id, url),
        ⟨dictSet scan.table new_scene_id ⟨url, now⟩, scan.avail⟩)
    | none => (none, ⟨scan.table, scan.avail⟩)

/-- `SceneIdManager.release_scene_id` (lines 235–251): if the id is in
`scene_id_to_url`, append it to `available_scene_ids` (unconditionally —
no `Allocated`/`Available` state is consulted); otherwise log a warning
and do nothing. -/
def release_scene_id (st : PoolState) (scene_id : String) : PoolState :=
  match dictGet st.scene_id_to_url scene_id with
  | some _ => ⟨st.scene_id_to_url, scene_id :: st.available_scene_ids⟩
  | none => st

/-- `SceneIdManager.get_qrcode_url` (lines 253–260). -/
def get_qrcode_url (st : PoolState) (scene_id : String) : Option String :=
  (dictGet st.scene_id_to_url scene_id).map QrInfo.qrcode_url

/-- A sequence of pool calls, as serialized by `self.lock`. -/
inductive PoolOp where
  | release (sid : String)
  | allocate (now : Nat) (newId : String) (issuer : List (Option String))
deriving Repr, DecidableEq

/-- Run a sequence of pool calls, collecting each `allocate`'s result. -/
def runPoolOps (st : PoolState) : List PoolOp → List (Option (String × String)) × PoolState
  | [] => ([], st)
  | .release sid :: rest => runPoolOps (release_scene_id st sid) rest
  | .allocate now newId issuer :: rest =>
    let r := get_scene_id now st newId issuer
    let k := runPoolOps r.2 rest
    (r.1 :: k.1, k.2)

/-- The literal `"qrscene_"` as a character list. -/
def qrscenePat : List Char := ['q', 'r', 's', 'c', 'e', 'n', 'e', '_']

/-- Worker for `replaceQrscene`.  The fuel argument only forces structural
recursion; every step consumes at least one character, so fuel equal to the
length of the list is never exhausted before the list is. -/
def replaceQrsceneAux : Nat → List Char → List Char
  | 0, l => l
  | _ + 1, [] => []
  | fuel + 1, c :: rest =>
    if qrscenePat.isPrefixOf (c :: rest) then
      replaceQrsceneAux fuel ((c :: rest).drop qrscenePat.length)
    else
      c :: replaceQrsceneAux fuel rest

/-- Python `s.replace("qrscene_", "")` on `main.py` line 159: delete every
(leftmost-first, non-overlapping) occurrence of `"qrscene_"` anywhere in
the string, continuing the search after each deleted occurrence. -/
def replaceQrscene (l : List Char) : List Char := replaceQrsceneAux l.length l

/-- The scene id the webhook handler derives from `EventKey`. -/
def deriveSceneId (event_key : String) : String :=
  ⟨replaceQrscene event_key.data⟩

/-- What the spec's words describe: strip the literal prefix `"qrscene_"`
when the key starts with it, leave the key unchanged otherwise.  Stated
from the spec, for comparison with `deriveSceneId` (the source behavior). -/
def stripQrscenePrefixSpec (event_key : String) : String :=
  if qrscenePat.isPrefixOf event_key.data then
    ⟨event_key.data.drop qrscenePat.length⟩
  else
    event_key

/-- A payload put on a session's queue: `{"userId": ..., "event": ...}`. -/
structure Payload where
  userId : String
  event : String
deriving Repr, DecidableEq

/-- The global `clients` dict of `main.py`: scene id → the queue's
pending payloads (oldest first). -/
abbrev Clients := List (String × List Payload)

/-- Membership test `scene_id in clients`. -/
def clientsHas (cl : Clients) (sid : String) : Bool :=
  match cl with
  | [] => false
  | (k, _) :: rest => if k = sid then true else clientsHas rest sid

/-- `await clients[scene_id].put(payload)`: append to that queue. -/
def clientsPut (cl : Clients) (sid : String) (p : Payload) : Clients :=
  match cl with
  | [] => []
  | (k, q) :: rest =>
    if k = sid then (k, q ++ [p]) :: rest else (k, q) :: clientsPut rest sid p

/-- `del clients[scene_id]`. -/
def clientsDel (cl : Clients) (sid : String) : Clients :=
  match cl with
  | [] => []
  | (k, q) :: rest => if k = sid then rest else (k, q) :: clientsDel rest sid

/-- Outcome of one `POST /wechat_event` request: the HTTP response
(every branch of the handler returns an empty-body 200 `text/plain`
response) and the `clients` map and pool state after the call. -/
structure WebhookResult where
  status : Nat
  body : String
  clients : Clients
  pool : PoolState
deriving Repr, DecidableEq

/-- `post_wechat_event` (`main.py` lines 137–197) on an already-parsed
XML dict: `msg_type = MsgType`, `event = Event`, `event_key =
xml_dict.get("EventKey", "")`, `from_user = FromUserName`.  For a
SCAN/subscribe event it derives the scene id, and when a client queue is
registered for it, puts `{userId, event}` on the queue and releases the
scene id; in every case it answers 200 with an empty body. -/
def post_wechat_event (msg_type event event_key from_user : String)
    (clients : Clients) (pool : PoolState) : WebhookResult :=
  if msg_type = "event" ∧ (event = "SCAN" ∨ event = "subscribe") then
    let scene_id := deriveSceneId event_key
    if scene_id = "" then
      ⟨200, "", clients, pool⟩
    else if clientsHas clients scene_id then
      ⟨200, "", clientsPut clients scene_id ⟨from_user, event⟩,
        release_scene_id pool scene_id⟩
    else
      ⟨200, "", clients, pool⟩
  else
    ⟨200, "", clients, pool⟩

/-- `total_timeout = 20` (`main.py` line 202). -/
def total_timeout : Int := 20

/-- One SSE frame, as serialized by the generator. -/
inductive Frame where
  | initial (scene_id qrcode_url : String)
  | payload (userId event : String)
  | timeout (message : String)
deriving Repr, DecidableEq

/-- What the single `asyncio.wait_for(client_queue.get(), remaining)` call
observes: a payload arriving after waiting `d` seconds, the timeout
elapsing (waits the whole `remaining`), or cancellation by the consumer
disconnecting after `d` seconds (raises `CancelledError`). -/
inductive WaitOutcome where
  | delivered (userId event : String) (d : Int)
  | timedOut
  | cancelled (d : Int)
deriving Repr, DecidableEq

/-- The semantics `asyncio.wait_for` guarantees for an outcome of a wait
whose timeout argument is `remaining`: the time actually waited is
non-negative and at most `remaining`. -/
def WaitOutcome.valid (remaining : Int) : WaitOutcome → Prop
  | .delivered _ _ d => 0 ≤ d ∧ d ≤ remaining
  | .timedOut => True
  | .cancelled d => 0 ≤ d ∧ d ≤ remaining

/-- The frames `event_generator` (`main.py` lines 227–321) yields and the
total time it spends waiting on the queue.  `start` is `start_time`;
`now` is the `time.time()` reading at the top of the loop body, so
`remaining = total_timeout - (now - start)`.  Every branch of the loop
body breaks (or re-raises `CancelledError`), so the loop runs once:
if `remaining <= 0` the server-side timeout frame is sent without
waiting; otherwise the generator performs one wait with timeout
`remaining` and emits the payload frame on delivery, the timeout frame
on `asyncio.TimeoutError`, and nothing on cancellation. -/
def event_generator (scene_id qrcode_url : String) (start now : Int)
    (outcome : WaitOutcome) : List Frame × Int :=
  let initialFrame := Frame.initial scene_id qrcode_url
  let remaining := total_timeout - (now - start)
  if remaining ≤ 0 then
    ([initialFrame, Frame.timeout "Connection timed out by server."], 0)
  else
    match outcome with
    | .delivered userId event d =>
      ([initialFrame, Frame.payload userId event], d)
    | .timedOut =>
      ([initialFrame, Frame.timeout "No scan event received in time."], remaining)
    | .cancelled d => ([initialFrame], d)

/-- `true` for the frames the generator sends after the initial one. -/
def Frame.isNonInitial : Frame → Bool
  | .initial _ _ => false
  | _ => true

/-- `true` exactly for delivered-payload frames. -/
def Frame.isPayload : Frame → Bool
  | .payload _ _ => true
  | _ => false

/-- `true` exactly for timeout frames. -/
def Frame.isTimeout : Frame → Bool
  | .timeout _ => true
  | _ => false

/-- A teardown call on the shared structures: deregistration
(`del clients[sid]`) or a `release_scene_id(sid)` call. -/
inductive TeardownOp where
  | deregister (sid : String)
  | release (sid : String)
deriving Repr, DecidableEq

/-- The cause that terminates a session's wait. -/
inductive Cause where
  | delivered
  | timedOut
  | cancelled
deriving Repr, DecidableEq

/-- Teardown calls made by `post_wechat_event` when it finds (or does not
find) the session's queue registered (`main.py` lines 176–190): on a hit
it calls `release_scene_id` after putting the payload; it never touches
`clients`. -/
def webhookTeardownOps (sid : String) (sidRegistered : Bool) : List TeardownOp :=
  if sidRegistered then [.release sid] else []

/-- Teardown calls made by the generator's `finally` block (`main.py`
lines 309–321): `del clients[sid]` if the id is still registered, then
`release_scene_id(sid)` unconditionally. -/
def finallyTeardownOps (sid : String) (sidRegistered : Bool) : List TeardownOp :=
  (if sidRegistered then [.deregister sid] else []) ++ [.release sid]

/-- All teardown calls executed for one session that reached the wait,
by termination cause.  On delivery, the webhook handler fires first with
the id registered (that is what routed the payload), and the `finally`
block runs afterwards, still finding the id registered because only the
`finally` block ever deletes it.  On timeout and cancellation only the
`finally` block runs. -/
def sessionTeardownOps (sid : String) : Cause → List TeardownOp
  | .delivered => webhookTeardownOps sid true ++ finallyTeardownOps sid true
  | .timedOut => finallyTeardownOps sid true
  | .cancelled => finallyTeardownOps sid true

/-- The `sse_endpoint` gate on the allocation result (`main.py` lines
215–225): `(None, None)` becomes a 503 "service busy" plain-text response
and no stream is opened; otherwise a queue is registered under the scene
id and the event stream starts. -/
inductive SseStart where
  | busy503
  | stream (scene_id qrcode_url : String)
deriving Repr, DecidableEq

/-- The response `sse_endpoint` chooses from `get_scene_id`'s result. -/
def sse_start (alloc : Option (String × String)) : SseStart :=
  match alloc with
  | none => .busy503
  | some (sid, url) => .stream sid url

/-- The `clients` map after `sse_endpoint`'s gate: unchanged on the 503
path, extended with a fresh empty queue on the stream path. -/
def sse_clients_after (clients : Clients) (alloc : Option (String × String)) :
    Clients :=
  match alloc with
  | none => clients
  | some (sid, _) => (sid, []) :: clients

/-- C2: the claim says a second `Release(id)` in a row is a silent no-op
leaving `id` exactly once in the available container.  The source appends
unconditionally whenever the id is in the record table, so two releases
leave the id there twice: with the table `{"a": {...}}` and an empty
available list, `release_scene_id("a")` twice makes the available list
hold `"a"` twice.  This is the double-release bug the spec's §9 demands
be fixed rather than replicated. -/
theorem c2_double_release_duplicates :
    ((release_scene_id (release_scene_id ⟨[("a", ⟨"ua", 0⟩)], []⟩ "a")
      "a").available_scene_ids).count "a" = 2 := by decide

/-- C3: the claim says no id is ever returned by two `Allocate` calls
without an intervening `Release` of that id.  Starting from a pool that
tracks `"a"` with an empty available list, the serialized call sequence
`Release("a"); Release("a"); Allocate(); Allocate()` makes both
`Allocate` calls return `"a"`, with no `Release` between them — the
double-release above defeats allocation exclusivity (Invariant I2). -/
theorem c3_double_allocate_same_id :
    (runPoolOps ⟨[("a", ⟨"ua", 0⟩)], []⟩
      [.release "a", .release "a", .allocate 0 "n1" [], .allocate 0 "n2" []]).1
    = [some ("a", "ua"), some ("a", "ua")] := by decide

/-- C1: the claim says `Deregister` and `Release` are each invoked exactly
once per session for all three termination causes.  In the source, the
delivery path calls `release_scene_id` from `post_wechat_event` (line 186)
and then again from the generator's `finally` block (line 320), so
`Release` runs twice on delivery; `Deregister` (the `del clients[...]`)
runs once, and the timeout and cancellation paths run each exactly once. -/
theorem c1_delivery_releases_twice :
    ((sessionTeardownOps "s" .delivered).count (.release "s") = 2
      ∧ (sessionTeardownOps "s" .delivered).count (.deregister "s") = 1)
    ∧ ((sessionTeardownOps "s" .timedOut).count (.release "s") = 1
      ∧ (sessionTeardownOps "s" .timedOut).count (.deregister "s") = 1)
    ∧ ((sessionTeardownOps "s" .cancelled).count (.release "s") = 1
      ∧ (sessionTeardownOps "s" .cancelled).count (.deregister "s") = 1) := by
  decide

/-- C7: the claim says the correlation id equals the event key with the
literal prefix `"qrscene_"` stripped when the key starts with it, and the
key unchanged otherwise.  The source uses Python
`EventKey.replace("qrscene_", "")`, which deletes every occurrence
anywhere in the string: on `"abqrscene_cd"` — a key that does not start
with the prefix — the handler derives `"abcd"`, while the spec's
prefix-strip leaves `"abqrscene_cd"` unchanged. -/
theorem c7_replace_all_not_prefix_strip :
    deriveSceneId "abqrscene_cd" = "abcd"
    ∧ stripQrscenePrefixSpec "abqrscene_cd" = "abqrscene_cd"
    ∧ deriveSceneId "qrscene_qrscene_x" = "x"
    ∧ stripQrscenePrefixSpec "qrscene_qrscene_x" = "qrscene_x" := by decide

/-- C9 counterexample: the claim says exactly one non-initial frame is
ever sent.  A session cancelled by consumer disconnect during the wait
(here at `start = now = 0`, cancellation after 0 seconds) emits only the
initial frame: zero non-initial frames, not one. -/
theorem c9_counterexample_cancel_sends_none :
    ((event_generator "s" "u" 0 0 (.cancelled 0)).1.countP
      Frame.isNonInitial) ≠ 1 := by decide

/-- C9 (amended): the first frame emitted is always
`{scene_id, qrcode_url}`, and at most one non-initial frame is ever sent
— either the delivered payload or a timeout frame, never both; on
consumer cancellation zero non-initial frames are sent. -/
theorem c9_frame_discipline (sid url : String) (start now : Int)
    (out : WaitOutcome) :
    ((event_generator sid url start now out).1.head?
        = some (.initial sid url))
    ∧ (event_generator sid url start now out).1.countP Frame.isNonInitial ≤ 1
    ∧ ¬((event_generator sid url start now out).1.countP Frame.isPayload = 1
        ∧ (event_generator sid url start now out).1.countP Frame.isTimeout = 1) := by
  unfold event_generator
  by_cases h : total_timeout - (now - start) ≤ 0 <;>
    cases out <;>
      simp [h, List.countP, List.countP.go, Frame.isNonInitial,
        Frame.isPayload, Frame.isTimeout]

/-- C8: the deadline is fixed once (`start_time` is read once), each
iteration recomputes `remaining = total_timeout - (now - start)` and
passes it as the single `asyncio.wait_for` timeout, so the total time a
session spends waiting on its queue never exceeds `total_timeout`, the
service-wide constant 20. -/
theorem c8_single_wait_budget (sid url : String) (start now : Int)
    (out : WaitOutcome) (hstart : start ≤ now)
    (hvalid : out.valid (total_timeout - (now - start))) :
    (event_generator sid url start now out).2 ≤ total_timeout
    ∧ total_timeout = 20 := by
  refine ⟨?_, rfl⟩
  simp only [event_generator]
  split
  · simp [total_timeout]
  · cases out <;> simp_all [WaitOutcome.valid, total_timeout] <;> omega

/-- Witness for C8 at a concrete session: `start = 0`, `now = 5`, the
wait times out. -/
theorem c8_single_wait_budget_witness :
    (event_generator "s" "u" 0 5 .timedOut).2 ≤ total_timeout
    ∧ total_timeout = 20 :=
  c8_single_wait_budget "s" "u" 0 5 .timedOut (by decide) (by trivial)

theorem dictGet_eq_none_of_not_mem (t : List (String × QrInfo)) (k : String)
    (h : k ∉ dictKeys t) : dictGet t k = none := by
  induction t with
  | nil => rfl
  | cons p rest ih =>
    obtain ⟨k', v⟩ := p
    simp only [dictKeys, List.map_cons, List.mem_cons, not_or] at h
    simp only [dictGet]
    rw [if_neg (fun e => h.1 e.symm)]
    exact ih (by simpa [dictKeys] using h.2)

theorem dictGet_dictDel_ne (t : List (String × QrInfo)) (k s : String)
    (h : s ≠ k) : dictGet (dictDel t k) s = dictGet t s := by
  induction t with
  | nil => rfl
  | cons p rest ih =>
    obtain ⟨k', v⟩ := p
    by_cases hk : k' = k
    · subst hk
      have hne : k' ≠ s := fun e => h e.symm
      simp [dictDel, dictGet, hne]
    · by_cases hs : k' = s <;> simp [dictDel, dictGet, hk, hs, h, ih]

theorem dictGet_dictDel_self (t : List (String × QrInfo)) (k : String)
    (h : (dictKeys t).Nodup) : dictGet (dictDel t k) k = none := by
  induction t with
  | nil => rfl
  | cons p rest ih =>
    obtain ⟨k', v⟩ := p
    simp only [dictKeys, List.map_cons, List.nodup_cons] at h
    by_cases hk : k' = k
    · subst hk
      simp only [dictDel, if_pos rfl]
      exact dictGet_eq_none_of_not_mem rest k' h.1
    · simp only [dictDel, if_neg hk, dictGet]
      exact ih h.2

theorem dictKeys_dictDel_sublist (t : List (String × QrInfo)) (k : String) :
    (dictKeys (dictDel t k)).Sublist (dictKeys t) := by
  induction t with
  | nil => simp [dictDel, dictKeys]
  | cons p rest ih =>
    obtain ⟨k', v⟩ := p
    by_cases hk : k' = k
    · simp only [dictDel, if_pos hk, dictKeys, List.map_cons]
      exact List.sublist_cons_of_sublist k' (List.Sublist.refl _)
    · simp only [dictDel, if_neg hk, dictKeys, List.map_cons]
      exact List.Sublist.cons₂ k' ih

theorem nodup_dictDel (t : List (String × QrInfo)) (k : String)
    (h : (dictKeys t).Nodup) : (dictKeys (dictDel t k)).Nodup :=
  (dictKeys_dictDel_sublist t k).nodup h

theorem dictGet_dictSet_self (t : List (String × QrInfo)) (k : String)
    (v : QrInfo) : dictGet (dictSet t k v) k = some v := by
  simp [dictSet, dictGet]

theorem dictGet_dictSet_ne (t : List (String × QrInfo)) (k s : String)
    (v : QrInfo) (h : s ≠ k) : dictGet (dictSet t k v) s = dictGet t s := by
  simp only [dictSet, dictGet]
  rw [if_neg (fun e => h e.symm)]
  exact dictGet_dictDel_ne t k s h

theorem scanLoop_table_of_none (now : Nat) (avail : List String)
    (t : List (String × QrInfo)) (sid : String) (h : dictGet t sid = none) :
    dictGet (scanLoop now t avail).table sid = none := by
  induction avail generalizing t with
  | nil => simpa [scanLoop] using h
  | cons a rest ih =>
    cases hga : dictGet t a with
    | none =>
      simp only [scanLoop, hga]
      exact ih t h
    | some ia =>
      by_cases hexp : now - ia.created_at < expire_seconds
      · simp only [scanLoop, hga, if_pos hexp]
        exact h
      · simp only [scanLoop, hga, if_neg hexp]
        have hne : sid ≠ a := fun e => by rw [e, hga] at h; cases h
        exact ih _ (by rw [dictGet_dictDel_ne t a sid hne]; exact h)

theorem scanLoop_nodup (now : Nat) (avail : List String)
    (t : List (String × QrInfo)) (h : (dictKeys t).Nodup) :
    (dictKeys (scanLoop now t avail).table).Nodup := by
  induction avail generalizing t with
  | nil => simpa [scanLoop] using h
  | cons a rest ih =>
    cases hga : dictGet t a with
    | none =>
      simp only [scanLoop, hga]
      exact ih t h
    | some ia =>
      by_cases hexp : now - ia.created_at < expire_seconds
      · simp only [scanLoop, hga, if_pos hexp]
        exact h
      · simp only [scanLoop, hga, if_neg hexp]
        exact ih _ (nodup_dictDel t a h)

theorem scanLoop_result_pre (now : Nat) (avail : List String)
    (t : List (String × QrInfo)) (sid url : String)
    (hnd : (dictKeys t).Nodup)
    (h : (scanLoop now t avail).result = some (sid, url)) :
    ∃ info, dictGet t sid = some info
      ∧ now - info.created_at < expire_seconds ∧ info.qrcode_url = url := by
  induction avail generalizing t with
  | nil => simp [scanLoop] at h
  | cons a rest ih =>
    cases hga : dictGet t a with
    | none =>
      simp only [scanLoop, hga] at h
      exact ih t hnd h
    | some ia =>
      by_cases hexp : now - ia.created_at < expire_seconds
      · simp only [scanLoop, hga, if_pos hexp] at h
        obtain ⟨rfl, rfl⟩ := Prod.mk.injEq .. ▸ Option.some.inj h
        exact ⟨ia, hga, hexp, rfl⟩
      · simp only [scanLoop, hga, if_neg hexp] at h
        obtain ⟨info, hg, hv, hu⟩ := ih _ (nodup_dictDel t a hnd) h
        have hne : sid ≠ a := by
          intro e
          rw [e, dictGet_dictDel_self t a hnd] at hg
          cases hg
        refine ⟨info, ?_, hv, hu⟩
        rw [← dictGet_dictDel_ne t a sid hne]
        exact hg

theorem scanLoop_result_post (now : Nat) (avail : List String)
    (t : List (String × QrInfo)) (sid url : String)
    (h : (scanLoop now t avail).result = some (sid, url)) :
    ∃ info, dictGet (scanLoop now t avail).table sid = some info
      ∧ info.qrcode_url = url := by
  induction avail generalizing t with
  | nil => simp [scanLoop] at h
  | cons a rest ih =>
    cases hga : dictGet t a with
    | none =>
      simp only [scanLoop, hga] at h ⊢
      exact ih t h
    | some ia =>
      by_cases hexp : now - ia.created_at < expire_seconds
      · simp only [scanLoop, hga, if_pos hexp] at h ⊢
        obtain ⟨rfl, rfl⟩ := Prod.mk.injEq .. ▸ Option.some.inj h
        exact ⟨ia, hga, rfl⟩
      · simp only [scanLoop, hga, if_neg hexp] at h ⊢
        exact ih _ h

theorem scanLoop_expired_removed (now : Nat) (avail : List String)
    (t : List (String × QrInfo)) (sid : String) (info : QrInfo)
    (hnd : (dictKeys t).Nodup)
    (hpop : sid ∈ (scanLoop now t avail).popped)
    (hget : dictGet t sid = some info)
    (hexp : expire_seconds ≤ now - info.created_at) :
    dictGet (scanLoop now t avail).table sid = none := by
  induction avail generalizing t with
  | nil => simp [scanLoop] at hpop
  | cons a rest ih =>
    cases hga : dictGet t a with
    | none =>
      simp only [scanLoop, hga] at hpop ⊢
      rcases List.mem_cons.mp hpop with rfl | hmem
      · rw [hget] at hga
        cases hga
      · exact ih t hnd hmem hget
    | some ia =>
      by_cases hv : now - ia.created_at < expire_seconds
      · simp only [scanLoop, hga, if_pos hv] at hpop ⊢
        rcases List.mem_singleton.mp hpop with rfl
        rw [hget] at hga
        obtain rfl := Option.some.inj hga
        omega
      · simp only [scanLoop, hga, if_neg hv] at hpop ⊢
        by_cases hsa : sid = a
        · subst hsa
          exact scanLoop_table_of_none now rest (dictDel t sid) sid
            (dictGet_dictDel_self t sid hnd)
        · rcases List.mem_cons.mp hpop with e | hmem
          · exact absurd e hsa
          · refine ih _ (nodup_dictDel t a hnd) hmem ?_
            rw [dictGet_dictDel_ne t a sid hsa]
            exact hget

theorem createLoop_attempts_le (issuer : List (Option String)) (fuel : Nat) :
    (createLoop issuer fuel).attempts ≤ fuel := by
  induction fuel generalizing issuer with
  | zero => simp [createLoop]
  | succ n ih =>
    cases issuer with
    | nil =>
      simp only [createLoop]
      exact Nat.succ_le_succ (ih [])
    | cons o rest =>
      cases o with
      | some u => simp [createLoop]
      | none =>
        simp only [createLoop]
        exact Nat.succ_le_succ (ih rest)

theorem createLoop_exhausted (issuer : List (Option String)) (fuel : Nat)
    (h : (createLoop issuer fuel).url = none) :
    (createLoop issuer fuel).attempts = fuel
      ∧ (createLoop issuer fuel).sleep = fuel * retry_delay := by
  induction fuel generalizing issuer with
  | zero => simp [createLoop]
  | succ n ih =>
    cases issuer with
    | nil =>
      simp only [createLoop] at h ⊢
      obtain ⟨h1, h2⟩ := ih [] h
      simp only [retry_delay, Nat.mul_one] at h2 ⊢
      omega
    | cons o rest =>
      cases o with
      | some u => simp [createLoop] at h
      | none =>
        simp only [createLoop] at h ⊢
        obtain ⟨h1, h2⟩ := ih rest h
        simp only [retry_delay, Nat.mul_one] at h2 ⊢
        omega

theorem createLoop_success_sleep (issuer : List (Option String)) (fuel : Nat)
    (url : String) (h : (createLoop issuer fuel).url = some url) :
    1 ≤ (createLoop issuer fuel).attempts
      ∧ (createLoop issuer fuel).sleep
        = ((createLoop issuer fuel).attempts - 1) * retry_delay := by
  induction fuel generalizing issuer with
  | zero => simp [createLoop] at h
  | succ n ih =>
    cases issuer with
    | nil =>
      simp only [createLoop] at h ⊢
      obtain ⟨h1, h2⟩ := ih [] h
      simp only [retry_delay, Nat.mul_one] at h2 ⊢
      omega
    | cons o rest =>
      cases o with
      | some u => simp [createLoop]
      | none =>
        simp only [createLoop] at h ⊢
        obtain ⟨h1, h2⟩ := ih rest h
        simp only [retry_delay, Nat.mul_one] at h2 ⊢
        omega

/-- C4: lazy expiry.  First conjunct: whatever pair `get_scene_id`
returns, the returned id is either the freshly synthesized
`new_scene_id` of the dynamic path or an id whose record in the incoming
table satisfies `now - created_at < expire_seconds` — an id whose record
is expired is never returned from the pool.  Second conjunct: any id the
scan pops whose record is expired has its record deleted from the record
table by the end of the `get_scene_id` call (assuming the fresh id does
not collide with it, which `uuid4` guarantees). -/
theorem c4_lazy_expiry (now : Nat) (st : PoolState) (newId : String)
    (issuer : List (Option String))
    (hnd : (dictKeys st.scene_id_to_url).Nodup) :
    (∀ sid url, (get_scene_id now st newId issuer).1 = some (sid, url) →
      sid = newId ∨ ∃ info, dictGet st.scene_id_to_url sid = some info
        ∧ now - info.created_at < expire_seconds)
    ∧ (∀ sid info,
        sid ∈ (scanLoop now st.scene_id_to_url st.available_scene_ids).popped →
        dictGet st.scene_id_to_url sid = some info →
        expire_seconds ≤ now - info.created_at →
        sid ≠ newId →
        dictGet (get_scene_id now st newId issuer).2.scene_id_to_url sid = none) := by
  constructor
  · intro sid url h
    cases hscan : (scanLoop now st.scene_id_to_url st.available_scene_ids).result with
    | some pair =>
      obtain ⟨s, u⟩ := pair
      simp only [get_scene_id, hscan] at h
      have hp : (s, u) = (sid, url) := Option.some.inj h
      rw [hp] at hscan
      obtain ⟨info, hget, hvalid, _⟩ :=
        scanLoop_result_pre now st.available_scene_ids st.scene_id_to_url
          sid url hnd hscan
      exact Or.inr ⟨info, hget, hvalid⟩
    | none =>
      cases hc : (createLoop issuer max_retries).url with
      | none => simp [get_scene_id, hscan, hc] at h
      | some u =>
        simp only [get_scene_id, hscan, hc] at h
        have := Option.some.inj h
        exact Or.inl (congrArg Prod.fst this).symm
  · intro sid info hpop hget hexp hne
    have hrem := scanLoop_expired_removed now st.available_scene_ids
      st.scene_id_to_url sid info hnd hpop hget hexp
    cases hscan : (scanLoop now st.scene_id_to_url st.available_scene_ids).result with
    | some pair =>
      simp only [get_scene_id, hscan]
      exact hrem
    | none =>
      cases hc : (createLoop issuer max_retries).url with
      | none =>
        simp only [get_scene_id, hscan, hc]
        exact hrem
      | some u =>
        simp only [get_scene_id, hscan, hc]
        rw [dictGet_dictSet_ne _ _ _ _ hne]
        exact hrem

/-- Witness for C4: the pool holds an expired id `"e"` (issued at 0,
`now = expire_seconds`) on top of a fresh id `"f"` (issued at 100).  The
scan pops and drops `"e"`, returns `"f"`. -/
theorem c4_lazy_expiry_witness :
    (∀ sid url,
      (get_scene_id 2592000
        ⟨[("e", ⟨"eu", 0⟩), ("f", ⟨"fu", 100⟩)], ["e", "f"]⟩ "n" []).1
        = some (sid, url) →
      sid = "n" ∨ ∃ info,
        dictGet [("e", ⟨"eu", 0⟩), ("f", ⟨"fu", 100⟩)] sid = some info
        ∧ 2592000 - info.created_at < expire_seconds)
    ∧ (∀ sid info,
        sid ∈ (scanLoop 2592000 [("e", ⟨"eu", 0⟩), ("f", ⟨"fu", 100⟩)]
          ["e", "f"]).popped →
        dictGet [("e", ⟨"eu", 0⟩), ("f", ⟨"fu", 100⟩)] sid = some info →
        expire_seconds ≤ 2592000 - info.created_at →
        sid ≠ "n" →
        dictGet (get_scene_id 2592000
          ⟨[("e", ⟨"eu", 0⟩), ("f", ⟨"fu", 100⟩)], ["e", "f"]⟩ "n"
          []).2.scene_id_to_url sid = none) :=
  c4_lazy_expiry 2592000 ⟨[("e", ⟨"eu", 0⟩), ("f", ⟨"fu", 100⟩)], ["e", "f"]⟩
    "n" [] (by decide)

/-- C5: allocation fallback.  Whenever the scan over the available
container yields no usable id, the dynamic path makes at most
`max_retries` `_create_qrcode` attempts with a fixed
`asyncio.sleep(retry_delay)` after every failed attempt.  On the first
success, the call returns `(new_scene_id, url)` and inserts the record
into the table without touching the available container (the post-scan
available list is returned unchanged).  If every attempt fails, it makes
exactly `max_retries` attempts (sleeping `max_retries * retry_delay` in
total), returns `(None, None)` leaving the state exactly as the scan left
it — a fresh id is not left in the record table — and the caller
`sse_endpoint` answers 503 service-busy without registering any client
queue. -/
theorem c5_fallback_retry (now : Nat) (st : PoolState) (newId : String)
    (issuer : List (Option String))
    (hdrain : (scanLoop now st.scene_id_to_url st.available_scene_ids).result
      = none) :
    (createLoop issuer max_retries).attempts ≤ max_retries
    ∧ (∀ url, (createLoop issuer max_retries).url = some url →
        (createLoop issuer max_retries).sleep
          = ((createLoop issuer max_retries).attempts - 1) * retry_delay
        ∧ get_scene_id now st newId issuer
          = (some (newId, url),
             ⟨dictSet (scanLoop now st.scene_id_to_url
                 st.available_scene_ids).table newId ⟨url, now⟩,
               (scanLoop now st.scene_id_to_url st.available_scene_ids).avail⟩))
    ∧ ((createLoop issuer max_retries).url = none →
        (createLoop issuer max_retries).attempts = max_retries
        ∧ (createLoop issuer max_retries).sleep = max_retries * retry_delay
        ∧ get_scene_id now st newId issuer
          = (none,
             ⟨(scanLoop now st.scene_id_to_url st.available_scene_ids).table,
               (scanLoop now st.scene_id_to_url st.available_scene_ids).avail⟩)
        ∧ (dictGet st.scene_id_to_url newId = none →
            dictGet (get_scene_id now st newId issuer).2.scene_id_to_url newId
              = none)
        ∧ sse_start (get_scene_id now st newId issuer).1 = .busy503
        ∧ ∀ cl : Clients, sse_clients_after cl (get_scene_id now st newId issuer).1
            = cl) := by
  refine ⟨createLoop_attempts_le issuer max_retries, ?_, ?_⟩
  · intro url hc
    refine ⟨(createLoop_success_sleep issuer max_retries url hc).2, ?_⟩
    simp only [get_scene_id, hdrain, hc]
  · intro hc
    obtain ⟨ha, hs⟩ := createLoop_exhausted issuer max_retries hc
    refine ⟨ha, hs, ?_, ?_, ?_, ?_⟩
    · simp only [get_scene_id, hdrain, hc]
    · intro hfresh
      simp only [get_scene_id, hdrain, hc]
      exact scanLoop_table_of_none now st.available_scene_ids
        st.scene_id_to_url newId hfresh
    · simp only [get_scene_id, hdrain, hc, sse_start]
    · intro cl
      simp only [get_scene_id, hdrain, hc, sse_clients_after]

/-- C6: stale delivery.  A SCAN/subscribe webhook whose derived scene id
has no registered client queue is acknowledged with the same 200
empty-body response as every other branch, and neither the `clients` map
nor the pool state changes — the payload reaches no session. -/
theorem c6_stale_delivery (msg_type event event_key from_user : String)
    (clients : Clients) (pool : PoolState)
    (hmsg : msg_type = "event")
    (hkind : event = "SCAN" ∨ event = "subscribe")
    (hmiss : clientsHas clients (deriveSceneId event_key) = false) :
    post_wechat_event msg_type event event_key from_user clients pool
      = ⟨200, "", clients, pool⟩ := by
  subst hmsg
  rcases hkind with rfl | rfl <;>
    by_cases hempty : deriveSceneId event_key = "" <;>
      simp [post_wechat_event, hempty, hmiss]

/-- Witness for C6: a SCAN webhook for `"qrscene_z"` while only
`"other"` has a registered queue. -/
theorem c6_stale_delivery_witness :
    post_wechat_event "event" "SCAN" "qrscene_z" "user1" [("other", [])]
        ⟨[("a", ⟨"ua", 0⟩)], []⟩
      = ⟨200, "", [("other", [])], ⟨[("a", ⟨"ua", 0⟩)], []⟩⟩ :=
  c6_stale_delivery "event" "SCAN" "qrscene_z" "user1" [("other", [])]
    ⟨[("a", ⟨"ua", 0⟩)], []⟩ rfl (Or.inl rfl) (by decide)

/-- C10: allocation/lookup agreement.  Whenever `get_scene_id` returns a
pair `(sid, url)` — from the pre-created pool or from the dynamic
fallback — `sid` is present in the record table of the resulting state,
and `get_qrcode_url sid` on that state returns exactly `url`. -/
theorem c10_alloc_lookup_agreement (now : Nat) (st : PoolState)
    (newId : String) (issuer : List (Option String)) (sid url : String)
    (h : (get_scene_id now st newId issuer).1 = some (sid, url)) :
    (∃ info, dictGet (get_scene_id now st newId issuer).2.scene_id_to_url sid
      = some info)
    ∧ get_qrcode_url (get_scene_id now st newId issuer).2 sid = some url := by
  cases hscan : (scanLoop now st.scene_id_to_url st.available_scene_ids).result with
  | some pair =>
    obtain ⟨s, u⟩ := pair
    simp only [get_scene_id, hscan] at h ⊢
    have hp : (s, u) = (sid, url) := Option.some.inj h
    rw [hp] at hscan
    obtain ⟨info, hget, hurl⟩ := scanLoop_result_post now
      st.available_scene_ids st.scene_id_to_url sid url hscan
    refine ⟨⟨info, hget⟩, ?_⟩
    simp [get_qrcode_url, hget, hurl]
  | none =>
    cases hc : (createLoop issuer max_retries).url with
    | none => simp [get_scene_id, hscan, hc] at h
    | some u =>
      simp only [get_scene_id, hscan, hc] at h ⊢
      have hp : (newId, u) = (sid, url) := Option.some.inj h
      have hsid : newId = sid := congrArg Prod.fst hp
      have hurl : u = url := congrArg Prod.snd hp
      subst hsid
      subst hurl
      refine ⟨⟨⟨u, now⟩, dictGet_dictSet_self _ _ _⟩, ?_⟩
      simp [get_qrcode_url, dictGet_dictSet_self]

/-- Witness for C10: a pool holding the single fresh id `"a"`. -/
theorem c10_alloc_lookup_agreement_witness :
    (∃ info, dictGet (get_scene_id 10 ⟨[("a", ⟨"ua", 5⟩)], ["a"]⟩ "n"
        []).2.scene_id_to_url "a" = some info)
    ∧ get_qrcode_url (get_scene_id 10 ⟨[("a", ⟨"ua", 5⟩)], ["a"]⟩ "n" []).2 "a"
      = some "ua" :=
  c10_alloc_lookup_agreement 10 ⟨[("a", ⟨"ua", 5⟩)], ["a"]⟩ "n" [] "a" "ua"
    (by decide)

/-- Witness for C5: an empty pool and an issuer that fails every attempt
(`issuer = []`). -/
theorem c5_fallback_retry_witness :
    (createLoop [] max_retries).attempts ≤ max_retries
    ∧ (∀ url, (createLoop [] max_retries).url = some url →
        (createLoop [] max_retries).sleep
          = ((createLoop [] max_retries).attempts - 1) * retry_delay
        ∧ get_scene_id 0 ⟨[], []⟩ "n" []
          = (some ("n", url),
             ⟨dictSet (scanLoop 0 (PoolState.mk [] []).scene_id_to_url
                 (PoolState.mk [] []).available_scene_ids).table "n" ⟨url, 0⟩,
               (scanLoop 0 (PoolState.mk [] []).scene_id_to_url
                 (PoolState.mk [] []).available_scene_ids).avail⟩))
    ∧ ((createLoop [] max_retries).url = none →
        (createLoop [] max_retries).attempts = max_retries
        ∧ (createLoop [] max_retries).sleep = max_retries * retry_delay
        ∧ get_scene_id 0 ⟨[], []⟩ "n" []
          = (none,
             ⟨(scanLoop 0 (PoolState.mk [] []).scene_id_to_url
                 (PoolState.mk [] []).available_scene_ids).table,
               (scanLoop 0 (PoolState.mk [] []).scene_id_to_url
                 (PoolState.mk [] []).available_scene_ids).avail⟩)
        ∧ (dictGet (PoolState.mk [] []).scene_id_to_url "n" = none →
            dictGet (get_scene_id 0 ⟨[], []⟩ "n" []).2.scene_id_to_url "n"
              = none)
        ∧ sse_start (get_scene_id 0 ⟨[], []⟩ "n" []).1 = .busy503
        ∧ ∀ cl : Clients, sse_clients_after cl (get_scene_id 0 ⟨[], []⟩ "n" []).1
            = cl) :=
  c5_fallback_retry 0 ⟨[], []⟩ "n" [] (by decide)
